import Mathlib

/-!
Shallow embedding of the host-side orchestration of the GK cavitation CUDA
kernel (`CudaCalcGKCavitationForceKernel` and its nested `CudaOverlapTree`),
from `plugins/amoeba/platforms/cuda/src/AmoebaCudaKernels.{h,cpp}`.

Conventions of the embedding:
* C++ `int`/size quantities that are nonnegative throughout the modelled code
  are `Nat`; C++ integer division on nonnegative values is `Nat` division.
* `float`/`double` quantities are `ℚ` (the modelled comparisons are far from
  rounding boundaries, and the claims are about comparison structure, not
  floating-point rounding).
* Device arrays owned by the kernel object are mirrored as host lists plus
  allocation flags (`NULL` pointer ↔ flag `false`); an `int` array filled by
  indexed assignment is mirrored as a function `ℕ → ℕ` with default `0`
  (`std::vector::resize` value-initializes).
* GPU compute kernels are opaque (their source is external to the repository);
  their observable outputs (the downloaded panic flags, the downloaded
  `ovAtomTreePointer` and `ovVolEnergy` arrays, and the CPU sizing oracle's
  `noverlaps` estimate) are inputs of the model, and the launches themselves
  are recorded in an ordered trace.
* C++ exceptions (`OpenMMException`) are `Except GKError`.
-/

namespace GVol

/-- One particle of the `AmoebaGKCavitationForce`: the triple returned by
`force.getParticleParameters(i, radius, gamma, ishydrogen)`. -/
structure Particle where
  radius : ℚ
  gamma : ℚ
  ishydrogen : Bool
deriving DecidableEq

/-- The exception messages thrown by the modelled member functions. -/
inductive GKError where
  /-- "GKCavitationForce does not support using multiple contexts" -/
  | multipleContexts
  /-- "initialize(): GKCavitation does not support multiple gamma values." -/
  | multipleGamma
  /-- "copyParametersToContext: GKCavitation plugin does not support changing
  the number of atoms." -/
  | atomCountChanged
  /-- "updateParametersInContext: GKCavitation plugin does not support changing
  atomic radii." -/
  | radiiChanged
  /-- "updateParametersInContext: GKCavitation plugin does not support changing
  heavy/hydrogen atoms." -/
  | hydrogenChanged
deriving DecidableEq

/-- `e.isError = true` iff the call threw. -/
def isError {α : Type} (e : Except GKError α) : Bool :=
  match e with
  | .error _ => true
  | .ok _ => false

/-- Extract the `.ok` state of a call, with a fallback for the error case. -/
def okOr {α : Type} (e : Except GKError α) (d : α) : α :=
  match e with
  | .error _ => d
  | .ok s => s

/-! ## CudaOverlapTree: host-side tree layout (`init_tree_size`) -/

/-- The per-atom overlap budgets actually used by `init_tree_size`:
`noverlaps[i] = (saved_noverlaps[i] > noverlaps_current[i]) ? saved_noverlaps[i]
: noverlaps_current[i] + 1` (the `+1` counts the 1-body overlap). -/
def noverlapsUsed (saved current : List ℕ) : List ℕ :=
  List.zipWith (fun s c => if s > c then s else c + 1) saved current

/-- The prefix-sum array `noverlaps_sum` (`noverlaps_sum[0] = 0`,
`noverlaps_sum[i] = noverlaps[i-1] + noverlaps_sum[i-1]`), built by the same
left-to-right accumulation as the source loop. -/
def prefixSumsFrom (acc : ℕ) : List ℕ → List ℕ
  | [] => [acc]
  | x :: rest => acc :: prefixSumsFrom (acc + x) rest

/-- `noverlaps_sum` for a budget vector. -/
def noverlapsSum (l : List ℕ) : List ℕ :=
  prefixSumsFrom 0 l

/-- The running-maximum loop computing `max_n_overlaps`. -/
def maxNoverlaps (l : List ℕ) : ℕ :=
  l.foldl (fun m x => if x > m then x else m) 0

/-- `n_overlaps_per_section`: `total / (num_sections - 1)` when
`num_sections > 1`, else `total`; then raised to `max_n_overlaps` if that is
larger. -/
def overlapsPerSection (total maxov num_sections : ℕ) : ℕ :=
  let base := if num_sections > 1 then total / (num_sections - 1) else total
  if maxov > base then maxov else base

/-- The section (compute unit) assigned to atom `i`:
`noverlaps_sum[i] / n_overlaps_per_section`. -/
def sectionOfAtom (noverlaps : List ℕ) (num_sections i : ℕ) : ℕ :=
  (noverlapsSum noverlaps).getD i 0 /
    overlapsPerSection ((noverlapsSum noverlaps).getD noverlaps.length 0)
      (maxNoverlaps noverlaps) num_sections

/-- Padded size of one tree section: clamp the raw size to at least 1,
multiply by `tree_size_boost`, round up to a multiple of `pad_modulo`
(`npadsize = pad_modulo * ((tsize + pad_modulo - 1) / pad_modulo)`). -/
def paddedSize (raw boost pad_modulo : ℕ) : ℕ :=
  let tsize := if raw < 1 then 1 else raw
  let tsize := tsize * boost
  pad_modulo * ((tsize + pad_modulo - 1) / pad_modulo)

/-- The `tree_pointer` loop: `tree_pointer[section] = offset;
offset += section_size[section]`. Returns the pointer list and the final
offset, starting from a given offset. -/
def treePointersFrom (offset : ℕ) : List ℕ → List ℕ × ℕ
  | [] => ([], offset)
  | sz :: rest =>
    let r := treePointersFrom (offset + sz) rest
    (offset :: r.1, r.2)

/-- The inner loop of the last phase of `init_tree_size`: starting at atom
index `iat` and tree slot `slot`, perform `k` iterations of
`if (iat < total_atoms_in_tree) atom_tree_pointer[iat] = slot` with `iat` and
`slot` both advancing by one. -/
def fillSec (total_atoms : ℕ) : (ℕ → ℕ) → ℕ → ℕ → ℕ → (ℕ → ℕ)
  | f, _, _, 0 => f
  | f, iat, slot, k + 1 =>
    fillSec total_atoms
      (if iat < total_atoms then Function.update f iat slot else f)
      (iat + 1) (slot + 1) k

/-- Accumulator of the last loop of `init_tree_size` over sections: the
`atom_tree_pointer` array, the running `total_tree_size`, the running
`atom_offset`, and the `first_atom` list. -/
structure LayoutAcc where
  atp : ℕ → ℕ
  total : ℕ
  atom_offset : ℕ
  first_atom : List ℕ

/-- The last loop of `init_tree_size`, consuming the parallel per-section
lists `natoms_in_tree`, `section_size` and `tree_pointer` in order: records
`first_atom[s]`, fills the section's atom slots, accumulates
`total_tree_size` and `atom_offset`. -/
def layoutAux (total_atoms : ℕ) (atp : ℕ → ℕ) (total atom_offset : ℕ) :
    List ℕ → List ℕ → List ℕ → LayoutAcc
  | n :: ns, sz :: szs, ptr :: ptrs =>
    let atp2 := fillSec total_atoms atp atom_offset ptr n
    let r := layoutAux total_atoms atp2 (total + sz) (atom_offset + n) ns szs ptrs
    ⟨r.atp, r.total, r.atom_offset, atom_offset :: r.first_atom⟩
  | _, _, _ => ⟨atp, total, atom_offset, []⟩

/-- Host-side state of a `CudaOverlapTree` object: the sizing/layout fields,
the regrow bookkeeping (`saved_noverlaps`, `tree_size_boost`,
`temp_buffer_size`, `hasExceededTempBuffer`). Device node arrays are sized by
`total_tree_size` and carry no host-visible data here. -/
structure TreeState where
  num_atoms : ℕ
  padded_num_atoms : ℕ
  total_atoms_in_tree : ℕ
  total_tree_size : ℕ
  num_sections : ℕ
  tree_size : List ℕ
  padded_tree_size : List ℕ
  atom_tree_pointer : ℕ → ℕ
  tree_pointer : List ℕ
  natoms_in_tree : List ℕ
  first_atom : List ℕ
  compute_unit_of_atom : List ℕ
  temp_buffer_size : ℤ
  tree_size_boost : ℕ
  has_saved_noverlaps : Bool
  saved_noverlaps : List ℕ
  hasExceededTempBuffer : Bool

/-- The `CudaOverlapTree` constructor state: no saved overlap counts,
`tree_size_boost = 2` (the default), `temp_buffer_size = -1`,
`hasExceededTempBuffer = false`. -/
def freshTree : TreeState where
  num_atoms := 0
  padded_num_atoms := 0
  total_atoms_in_tree := 0
  total_tree_size := 0
  num_sections := 0
  tree_size := []
  padded_tree_size := []
  atom_tree_pointer := fun _ => 0
  tree_pointer := []
  natoms_in_tree := []
  first_atom := []
  compute_unit_of_atom := []
  temp_buffer_size := -1
  tree_size_boost := 2
  has_saved_noverlaps := false
  saved_noverlaps := []
  hasExceededTempBuffer := false

/-- `CudaOverlapTree::init_tree_size`, phase by phase:
budgets (`max` with the saved counts, `+1` for the 1-body root), prefix sums,
per-section load, section assignment, per-section raw sizes, boosted and
padded sizes, cumulative tree pointers, and the final layout loop setting
`first_atom`, `atom_tree_pointer` and `total_tree_size`. -/
def TreeState.init_tree_size (t : TreeState) (num_atoms padded_num_atoms
    num_compute_units pad_modulo : ℕ) (noverlaps_current : List ℕ) :
    TreeState :=
  let saved0 := if t.has_saved_noverlaps then t.saved_noverlaps
                else List.replicate num_atoms 0
  let noverlaps := noverlapsUsed saved0 noverlaps_current
  let num_sections := num_compute_units
  let cuList := (List.range num_atoms).map (sectionOfAtom noverlaps num_sections)
  let natoms := (List.range num_sections).map
    (fun s => cuList.countP (fun x => x == s))
  let raw := (List.range num_sections).map
    (fun s => ((List.range num_atoms).filter
        (fun i => cuList.getD i 0 == s)).foldl
      (fun a i => a + noverlaps.getD i 0) 0)
  let padded := raw.map (fun sz => paddedSize sz t.tree_size_boost pad_modulo)
  let ptrs := (treePointersFrom 0 padded).1
  let acc := layoutAux num_atoms (fun _ => 0) 0 0 natoms padded ptrs
  { t with
    num_atoms := num_atoms
    padded_num_atoms := padded_num_atoms
    total_atoms_in_tree := num_atoms
    total_tree_size := acc.total
    num_sections := num_sections
    tree_size := List.replicate num_sections 0
    padded_tree_size := padded
    atom_tree_pointer := acc.atp
    tree_pointer := ptrs
    natoms_in_tree := natoms
    first_atom := acc.first_atom
    compute_unit_of_atom := cuList
    has_saved_noverlaps := true
    saved_noverlaps := noverlaps }

/-- `CudaOverlapTree::resize_tree_buffers` (the host bookkeeping): on the
first call (`temp_buffer_size <= 0`) the scratch size is
`ov_work_group_size * num_sections * 64`; if `hasExceededTempBuffer` is set,
the scratch size is doubled and the flag cleared. The re-creation of the
device arrays themselves is opaque. -/
def TreeState.resize_tree_buffers (t : TreeState) (ov_work_group_size : ℕ) :
    TreeState :=
  let temp0 : ℤ := if t.temp_buffer_size ≤ 0
    then (ov_work_group_size * t.num_sections * 64 : ℕ) else t.temp_buffer_size
  if t.hasExceededTempBuffer then
    { t with temp_buffer_size := 2 * temp0, hasExceededTempBuffer := false }
  else
    { t with temp_buffer_size := temp0 }

/-! ## Kernel-object state and `initialize` -/

/-- Host-side state of a `CudaCalcGKCavitationForceKernel` object. Device
parameter arrays (`radiusParam1/2`, `gammaParam1/2`, `ishydrogenParam`) are
mirrored as the lists last uploaded to them; `paramsAllocated`,
`gtreeCreated` and `pinnedAllocated` record whether the corresponding device
arrays, the `CudaOverlapTree` object and the pinned panic-button page have
been created (`NULL`-pointer tracking). `forcesValid` mirrors the context's
forces-valid flag as the kernel last set it. -/
structure GKState where
  roffset : ℚ
  numParticles : ℕ
  radiusVector1 : List ℚ
  radiusVector2 : List ℚ
  gammaVector1 : List ℚ
  gammaVector2 : List ℚ
  ishydrogenVector : List Bool
  radiusParam1 : List ℚ
  radiusParam2 : List ℚ
  gammaParam1 : List ℚ
  gammaParam2 : List ℚ
  ishydrogenParam : List Bool
  paramsAllocated : Bool
  gtreeCreated : Bool
  pinnedAllocated : Bool
  common_gamma : ℚ
  tree : TreeState
  hasCreatedKernels : Bool
  hasInitializedKernels : Bool
  forcesValid : Bool
  niterations : ℕ

/-- One entry produced by the per-particle loop of `initialize`: the values
written to `radiusVector1/2`, `gammaVector1/2` and `ishydrogenVector` at
index `i`. -/
structure PEntry where
  rv1 : ℚ
  rv2 : ℚ
  gv1 : ℚ
  gv2 : ℚ
  hyd : Bool
deriving DecidableEq

/-- The per-particle loop of `initialize`: computes the enlarged and nominal
radii, the signed gamma parameters (`γ/roffset` for heavy atoms, `0` for
hydrogens), and runs the common-gamma scan (`common_gamma` starts at `-1`; a
heavy atom seen while it is negative replaces it, otherwise a heavy atom
whose `γ` differs from it by squared difference `> 1e-6` throws). -/
def initParticleLoop (roffset : ℚ) :
    List Particle → ℚ → Except GKError (List PEntry × ℚ)
  | [], cg => .ok ([], cg)
  | p :: rest, cg =>
    let e : PEntry :=
      { rv1 := p.radius + roffset
        rv2 := p.radius
        gv1 := if p.ishydrogen then 0 else p.gamma / roffset
        gv2 := -(if p.ishydrogen then 0 else p.gamma / roffset)
        hyd := p.ishydrogen }
    if cg < 0 ∧ p.ishydrogen = false then
      (initParticleLoop roffset rest p.gamma).map (fun r => (e :: r.1, r.2))
    else if p.ishydrogen = false ∧ (cg - p.gamma) ^ 2 > 1 / 1000000 then
      .error .multipleGamma
    else
      (initParticleLoop roffset rest cg).map (fun r => (e :: r.1, r.2))

/-- `std::vector::resize(paddedNumAtoms)` semantics: the computed entries for
the first `numParticles` indices, value-initialized defaults beyond. -/
def padTo {α : Type} (d : α) (n : ℕ) (l : List α) : List α :=
  l ++ List.replicate (n - l.length) d

/-- `CudaCalcGKCavitationForceKernel::initialize`. `numContexts` is
`cu.getPlatformData().contexts.size()`; `particles` is the force's particle
list (`cu.getNumAtoms()` entries); `roffset` is `GKCAV_RADIUS_INCREMENT`
(defined outside this repository, kept as a parameter). Throws on multiple
contexts, returns before any allocation when the atom count is zero, and
otherwise records the parameter vectors, uploads them, creates the overlap
tree and the pinned panic-button page. -/
def initForce (numContexts paddedNumAtoms : ℕ) (roffset : ℚ)
    (particles : List Particle) : Except GKError GKState :=
  if numContexts > 1 then .error .multipleContexts
  else if particles.length = 0 then
    .ok
      { roffset := roffset
        numParticles := 0
        radiusVector1 := []
        radiusVector2 := []
        gammaVector1 := []
        gammaVector2 := []
        ishydrogenVector := []
        radiusParam1 := []
        radiusParam2 := []
        gammaParam1 := []
        gammaParam2 := []
        ishydrogenParam := []
        paramsAllocated := false
        gtreeCreated := false
        pinnedAllocated := false
        common_gamma := -1
        tree := freshTree
        hasCreatedKernels := false
        hasInitializedKernels := false
        forcesValid := true
        niterations := 0 }
  else
    match initParticleLoop roffset particles (-1) with
    | .error e => .error e
    | .ok (entries, cg) =>
      let rv1 := padTo 0 paddedNumAtoms (entries.map PEntry.rv1)
      let rv2 := padTo 0 paddedNumAtoms (entries.map PEntry.rv2)
      let gv1 := padTo 0 paddedNumAtoms (entries.map PEntry.gv1)
      let gv2 := padTo 0 paddedNumAtoms (entries.map PEntry.gv2)
      let hv := padTo false paddedNumAtoms (entries.map PEntry.hyd)
      .ok
        { roffset := roffset
          numParticles := particles.length
          radiusVector1 := rv1
          radiusVector2 := rv2
          gammaVector1 := gv1
          gammaVector2 := gv2
          ishydrogenVector := hv
          radiusParam1 := rv1
          radiusParam2 := rv2
          gammaParam1 := gv1
          gammaParam2 := gv2
          ishydrogenParam := hv
          paramsAllocated := true
          gtreeCreated := true
          pinnedAllocated := true
          common_gamma := cg
          tree := freshTree
          hasCreatedKernels := false
          hasInitializedKernels := false
          forcesValid := true
          niterations := 0 }

/-! ## `copyParametersToContext` -/

/-- The per-particle loop of `copyParametersToContext`: at index `i`, throw if
the new radius differs from the stored nominal radius (squared difference
`> 1e-6`) or the hydrogen flag changed; otherwise record the new gamma value
`γ/roffset` (0 for hydrogens) destined for `gammaVector1[i]`. -/
def copyLoop (roffset : ℚ) (rv2 : List ℚ) (hv : List Bool) :
    List Particle → ℕ → Except GKError (List ℚ)
  | [], _ => .ok []
  | p :: rest, i =>
    if (rv2.getD i 0 - p.radius) ^ 2 > 1 / 1000000 then .error .radiiChanged
    else if hv.getD i false ≠ p.ishydrogen then .error .hydrogenChanged
    else
      (copyLoop roffset rv2 hv rest (i + 1)).map
        (fun l => (if p.ishydrogen then 0 else p.gamma / roffset) :: l)

/-- Overwrite the first `core.length` entries of `old` with `core`
(the loop assigns indices `0 .. numParticles-1`, the padded tail stays). -/
def setCore {α : Type} (old core : List α) : List α :=
  core ++ old.drop core.length

/-- `CudaCalcGKCavitationForceKernel::copyParametersToContext`: checks the
particle count, returns unchanged for zero particles, validates radii and
hydrogen flags, recomputes the signed gamma vectors and uploads exactly
`gammaParam1` and `gammaParam2`. -/
def copyParametersToContext (st : GKState) (force : List Particle) :
    Except GKError GKState :=
  if force.length ≠ st.numParticles then .error .atomCountChanged
  else if st.numParticles = 0 then .ok st
  else
    match copyLoop st.roffset st.radiusVector2 st.ishydrogenVector force 0 with
    | .error e => .error e
    | .ok core =>
      let gv1 := setCore st.gammaVector1 core
      let gv2 := setCore st.gammaVector2 (core.map Neg.neg)
      .ok { st with
        gammaVector1 := gv1
        gammaVector2 := gv2
        gammaParam1 := gv1
        gammaParam2 := gv2 }

/-! ## `execute`: per-step orchestration -/

/-- The GPU kernels launched by `executeGVolSA`, in the order the host
issues them. The kernels themselves are opaque; only the launch trace is
modelled. -/
inductive Phase where
  | resetTree
  | resetBuffer
  | initOverlapTree1body1
  | initOverlapTreeCount
  | reduceovCountBuffer
  | initOverlapTree
  | resetComputeOverlapTree
  | computeOverlapTree1pass
  | resetSelfVolumes
  | computeSelfVolumes
  | reduceSelfVolumes
  | updateSelfVolumesForces
  | initOverlapTree1body2
  | resetRescanOverlapTree
  | initRescanOverlapTree
  | rescanOverlapTree
deriving DecidableEq

/-- The observable outputs of one step's opaque device work: the CPU sizing
oracle's per-atom overlap estimate (consumed by `executeInitKernels`), the
two pinned panic-flag entries as read after `cuEventSynchronize`, and the
downloaded `ovAtomTreePointer` / `ovVolEnergy` contents after each of the two
passes. -/
structure DeviceRun where
  oracleNoverlaps : List ℕ
  panic0 : ℤ
  panic1 : ℤ
  atomPointer1 : List ℕ
  volEnergies1 : List ℚ
  atomPointer2 : List ℕ
  volEnergies2 : List ℚ

/-- Host/context configuration consumed by the kernel: atom counts and the
launch geometry (`nb.getNumForceThreadBlocks()`,
`nb.getForceThreadBlockSize()`; the pad modulus of `init_tree_size` is the
work group size). -/
structure Config where
  numAtoms : ℕ
  paddedNumAtoms : ℕ
  num_compute_units : ℕ
  ov_work_group_size : ℕ

/-- Result of one `execute` call: the returned energy, the new host state,
the trace of kernel launches, and whether the call went through
`executeInitKernels`. -/
structure ExecResult where
  energy : ℚ
  state : GKState
  launched : List Phase
  ranInit : Bool

/-- The host-side energy accumulation loop after a pass:
`for i < numParticles: energy += vol_energies[atom_pointer[i]]`. -/
def sumEnergies (numParticles : ℕ) (atom_pointer : List ℕ)
    (vol_energies : List ℚ) : ℚ :=
  (List.range numParticles).foldl
    (fun acc i => acc + vol_energies.getD (atom_pointer.getD i 0) 0) 0

/-- The tree-sizing part of
`CudaCalcGKCavitationForceKernel::executeInitKernels`: run the CPU sizing
oracle (its `noverlaps` output is an input here), then `init_tree_size` with
`pad_modulo = ov_work_group_size`, then `resize_tree_buffers`. Kernel
compilation and the remaining device allocations are opaque. -/
def executeInitKernels (cfg : Config) (st : GKState) (dev : DeviceRun) :
    GKState :=
  { st with
    tree := (st.tree.init_tree_size cfg.numAtoms cfg.paddedNumAtoms
        cfg.num_compute_units cfg.ov_work_group_size
        dev.oracleNoverlaps).resize_tree_buffers cfg.ov_work_group_size }

/-- `CudaCalcGKCavitationForceKernel::executeGVolSA`: launches the
construction phases, downloads the panic flags asynchronously, launches
`resetSelfVolumes`, then synchronizes on the download. On panic it forces
reinitialization, invalidates the forces, optionally flags the temp buffer
for doubling, and returns `0.0` without the remaining phases. Otherwise it
runs both reduction passes, computes the host-side energy sums from the
downloaded `ovVolEnergy` values — and returns `0.0`. -/
def executeGVolSA (st : GKState) (dev : DeviceRun) :
    ℚ × GKState × List Phase :=
  let st := { st with niterations := st.niterations + 1 }
  let launched := [Phase.resetTree, Phase.resetBuffer,
    Phase.initOverlapTree1body1, Phase.initOverlapTreeCount,
    Phase.reduceovCountBuffer, Phase.initOverlapTree,
    Phase.resetComputeOverlapTree, Phase.computeOverlapTree1pass,
    Phase.resetSelfVolumes]
  if dev.panic0 > 0 then
    (0, { st with
        hasInitializedKernels := false
        forcesValid := false
        tree := if dev.panic1 > 0
          then { st.tree with hasExceededTempBuffer := true } else st.tree },
      launched)
  else
    let launched := launched ++ [Phase.computeSelfVolumes,
      Phase.reduceSelfVolumes, Phase.updateSelfVolumesForces]
    let energy := sumEnergies st.numParticles dev.atomPointer1 dev.volEnergies1
    let _ := energy
    let launched := launched ++ [Phase.initOverlapTree1body2,
      Phase.resetRescanOverlapTree, Phase.initRescanOverlapTree,
      Phase.rescanOverlapTree, Phase.resetSelfVolumes, Phase.resetBuffer,
      Phase.computeSelfVolumes, Phase.reduceSelfVolumes,
      Phase.updateSelfVolumesForces]
    let energy := sumEnergies st.numParticles dev.atomPointer2 dev.volEnergies2
    let _ := energy
    (0, st, launched)

/-- `CudaCalcGKCavitationForceKernel::execute`: runs `executeInitKernels`
when the kernels are not created or not initialized, sets both flags, calls
`executeGVolSA` — and returns `0.0`. -/
def execute (cfg : Config) (st : GKState) (dev : DeviceRun) : ExecResult :=
  let ranInit := !st.hasCreatedKernels || !st.hasInitializedKernels
  let st := if ranInit then
      { executeInitKernels cfg st dev with
        hasInitializedKernels := true
        hasCreatedKernels := true }
    else st
  let r := executeGVolSA st dev
  let _ := r.1
  { energy := 0, state := r.2.1, launched := r.2.2, ranInit := ranInit }

/-! ## Concrete demonstration inputs -/

/-- A configuration with 5 atoms and 4 compute units. -/
def cfgDemo : Config where
  numAtoms := 5
  paddedNumAtoms := 32
  num_compute_units := 4
  ov_work_group_size := 32

/-- A host state as left by a successful nonzero initialization (five heavy
atoms with `γ = 1/10`, radii `3/20`, `roffset = 1/10`). -/
def stDemo : GKState where
  roffset := 1 / 10
  numParticles := 5
  radiusVector1 := [1 / 4, 1 / 4, 1 / 4, 1 / 4, 1 / 4]
  radiusVector2 := [3 / 20, 3 / 20, 3 / 20, 3 / 20, 3 / 20]
  gammaVector1 := [1, 1, 1, 1, 1]
  gammaVector2 := [-1, -1, -1, -1, -1]
  ishydrogenVector := [false, false, false, false, false]
  radiusParam1 := [1 / 4, 1 / 4, 1 / 4, 1 / 4, 1 / 4]
  radiusParam2 := [3 / 20, 3 / 20, 3 / 20, 3 / 20, 3 / 20]
  gammaParam1 := [1, 1, 1, 1, 1]
  gammaParam2 := [-1, -1, -1, -1, -1]
  ishydrogenParam := [false, false, false, false, false]
  paramsAllocated := true
  gtreeCreated := true
  pinnedAllocated := true
  common_gamma := 1 / 10
  tree := freshTree
  hasCreatedKernels := false
  hasInitializedKernels := false
  forcesValid := true
  niterations := 0

/-- A device step that completes without panic and reports volume energy 5
for the single tree slot of atom 0 in both passes. -/
def devOk : DeviceRun where
  oracleNoverlaps := [0, 0, 0, 0, 0]
  panic0 := 0
  panic1 := 0
  atomPointer1 := [0, 1, 2, 3, 4]
  volEnergies1 := [5, 0, 0, 0, 0]
  atomPointer2 := [0, 1, 2, 3, 4]
  volEnergies2 := [5, 0, 0, 0, 0]

/-- A device step whose tree construction overflows: both pinned panic
entries read positive. -/
def devPanic : DeviceRun where
  oracleNoverlaps := [0, 0, 0, 0, 0]
  panic0 := 1
  panic1 := 1
  atomPointer1 := []
  volEnergies1 := []
  atomPointer2 := []
  volEnergies2 := []

/-! ## C1 -/

/-- C1 (amended): `execute` returns `0.0` unconditionally — for every
configuration, host state and device outcome. The host-side sums of the
downloaded per-atom volume energies are computed and then discarded; the
cavitation energy reaches the caller only through the device energy buffer
filled by `updateSelfVolumesForces`. -/
theorem C1_execute_returns_zero (cfg : Config) (st : GKState)
    (dev : DeviceRun) : (execute cfg st dev).energy = 0 := by
  simp only [execute]

/-- C1 counterexample to the claim as stated: a call with a non-empty atom
set (5 particles) and no panic (`panic0 = 0`) for which the sum over atoms of
the per-atom volume energies accumulated in the tree is `5`, while `execute`
returns `0 ≠ 5`. -/
theorem C1_counterexample :
    devOk.panic0 = 0 ∧ stDemo.numParticles = 5 ∧
      sumEnergies stDemo.numParticles devOk.atomPointer2 devOk.volEnergies2 = 5 ∧
      (execute cfgDemo stDemo devOk).energy = 0 ∧ (0 : ℚ) ≠ 5 := by
  refine ⟨rfl, rfl, ?_, ?_, by norm_num⟩
  · show sumEnergies 5 [0, 1, 2, 3, 4] [5, 0, 0, 0, 0] = 5
    simp [sumEnergies, List.range_succ]
  · simp only [execute]

/-! ## C2 -/

/-- C2 (amended): if the downloaded panic flag (entry 0 of the pinned page)
is positive, `execute` returns `0`, marks the host forces invalid, clears
`hasInitializedKernels` so that the next call goes through
`executeInitKernels` (rebuilding the tree from the retained per-atom
budgets), sets `hasExceededTempBuffer` when entry 1 is also positive, and
launches neither the `computeSelfVolumes` / `reduceSelfVolumes` /
`updateSelfVolumesForces` phases nor any second-pass phase for that step.
The `resetSelfVolumes` phase — the first phase of the reduction pipeline —
has however already been issued before the flag is read (it overlaps the
asynchronous panic download), so it does run. -/
theorem C2_panic_aborts_step (cfg : Config) (st : GKState)
    (dev dev2 : DeviceRun) (h : dev.panic0 > 0) :
    (execute cfg st dev).energy = 0 ∧
      (execute cfg st dev).state.forcesValid = false ∧
      (execute cfg st dev).state.hasInitializedKernels = false ∧
      (dev.panic1 > 0 →
        (execute cfg st dev).state.tree.hasExceededTempBuffer = true) ∧
      Phase.computeSelfVolumes ∉ (execute cfg st dev).launched ∧
      Phase.reduceSelfVolumes ∉ (execute cfg st dev).launched ∧
      Phase.updateSelfVolumesForces ∉ (execute cfg st dev).launched ∧
      Phase.initOverlapTree1body2 ∉ (execute cfg st dev).launched ∧
      Phase.rescanOverlapTree ∉ (execute cfg st dev).launched ∧
      Phase.resetSelfVolumes ∈ (execute cfg st dev).launched ∧
      (execute cfg (execute cfg st dev).state dev2).ranInit = true := by
  have hG : ∀ s : GKState, executeGVolSA s dev =
      (0,
        { s with
          niterations := s.niterations + 1
          hasInitializedKernels := false
          forcesValid := false
          tree := if dev.panic1 > 0 then { s.tree with hasExceededTempBuffer := true }
            else s.tree },
        [Phase.resetTree, Phase.resetBuffer, Phase.initOverlapTree1body1,
          Phase.initOverlapTreeCount, Phase.reduceovCountBuffer, Phase.initOverlapTree,
          Phase.resetComputeOverlapTree, Phase.computeOverlapTree1pass,
          Phase.resetSelfVolumes]) := by
    intro s
    simp only [executeGVolSA, if_pos h]
  simp only [execute, hG]
  refine ⟨trivial, trivial, trivial, ?_, by decide, by decide, by decide, by decide,
    by decide, by decide, by simp [execute]⟩
  intro h1
  rw [if_pos h1]

/-- Witness for C2 at a concrete panicking step. -/
theorem C2_witness :
    devPanic.panic0 > 0 ∧
      ((execute cfgDemo stDemo devPanic).energy = 0 ∧
        (execute cfgDemo stDemo devPanic).state.forcesValid = false ∧
        (execute cfgDemo stDemo devPanic).state.hasInitializedKernels = false ∧
        (devPanic.panic1 > 0 →
          (execute cfgDemo stDemo devPanic).state.tree.hasExceededTempBuffer = true) ∧
        Phase.computeSelfVolumes ∉ (execute cfgDemo stDemo devPanic).launched ∧
        Phase.reduceSelfVolumes ∉ (execute cfgDemo stDemo devPanic).launched ∧
        Phase.updateSelfVolumesForces ∉ (execute cfgDemo stDemo devPanic).launched ∧
        Phase.initOverlapTree1body2 ∉ (execute cfgDemo stDemo devPanic).launched ∧
        Phase.rescanOverlapTree ∉ (execute cfgDemo stDemo devPanic).launched ∧
        Phase.resetSelfVolumes ∈ (execute cfgDemo stDemo devPanic).launched ∧
        (execute cfgDemo (execute cfgDemo stDemo devPanic).state devOk).ranInit = true) :=
  ⟨by decide, C2_panic_aborts_step cfgDemo stDemo devPanic devOk (by decide)⟩

/-- C2 counterexample to the claim as stated: on a panicking step, the
`resetSelfVolumes` kernel — phase 1 of the reduction pipeline in the
specification — is nevertheless launched, so "does not run the reduction
pipeline for that step" fails as written. -/
theorem C2_counterexample :
    devPanic.panic0 > 0 ∧
      Phase.resetSelfVolumes ∈ (execute cfgDemo stDemo devPanic).launched := by
  constructor
  · decide
  · simp only [execute, executeGVolSA]
    split <;> decide

/-! ## C6 -/

/-- C6: the section index computed in `init_tree_size` can reach the section
count. With 5 atoms of overlap budget 1 each (`noverlaps_current = 0` on a
fresh tree, so each budget is `0 + 1`) and `S = 4` compute units, the
per-section load is `max(5 / 3, 1) = 1` and the fifth atom's prefix sum `4`
yields section index `4 = S`: the subsequent `natoms_in_tree[4] += 1` and
`section_size[4] += ...` writes in the source are out of bounds. -/
theorem C6_section_index_overflow :
    (freshTree.init_tree_size 5 5 4 32 [0, 0, 0, 0, 0]).num_sections = 4 ∧
      (freshTree.init_tree_size 5 5 4 32 [0, 0, 0, 0, 0]).compute_unit_of_atom =
        [0, 1, 2, 3, 4] ∧
      ¬((freshTree.init_tree_size 5 5 4 32
            [0, 0, 0, 0, 0]).compute_unit_of_atom.getD 4 0 <
          (freshTree.init_tree_size 5 5 4 32 [0, 0, 0, 0, 0]).num_sections) := by
  decide

/-! ## C10 -/

/-- The state `initialize` returns when the context reports zero atoms: the
early return fires before any device-array allocation, before the
`CudaOverlapTree` and the pinned panic page are created, and before any
per-atom parameter is recorded. -/
def zeroState (r : ℚ) : GKState where
  roffset := r
  numParticles := 0
  radiusVector1 := []
  radiusVector2 := []
  gammaVector1 := []
  gammaVector2 := []
  ishydrogenVector := []
  radiusParam1 := []
  radiusParam2 := []
  gammaParam1 := []
  gammaParam2 := []
  ishydrogenParam := []
  paramsAllocated := false
  gtreeCreated := false
  pinnedAllocated := false
  common_gamma := -1
  tree := freshTree
  hasCreatedKernels := false
  hasInitializedKernels := false
  forcesValid := true
  niterations := 0

/-- C10: with zero atoms, `initialize` (after the multiple-context check
passes) returns the unallocated state — no device parameter arrays, no
overlap tree, no pinned panic page, no recorded per-atom parameters — and
`copyParametersToContext` on a zero-particle state returns it unchanged,
uploading nothing. -/
theorem C10_zero_atoms_no_allocation (c pad : ℕ) (r : ℚ) (hc : c ≤ 1)
    (st : GKState) (h0 : st.numParticles = 0) (force : List Particle)
    (hf : force.length = 0) :
    initForce c pad r [] = .ok (zeroState r) ∧
      (zeroState r).paramsAllocated = false ∧
      (zeroState r).gtreeCreated = false ∧
      (zeroState r).pinnedAllocated = false ∧
      (zeroState r).radiusVector1 = [] ∧ (zeroState r).radiusVector2 = [] ∧
      (zeroState r).gammaVector1 = [] ∧ (zeroState r).gammaVector2 = [] ∧
      (zeroState r).ishydrogenVector = [] ∧
      copyParametersToContext st force = .ok st := by
  have hlt : ¬c > 1 := by omega
  refine ⟨?_, rfl, rfl, rfl, rfl, rfl, rfl, rfl, rfl, ?_⟩
  · simp [initForce, hlt, zeroState]
  · simp [copyParametersToContext, hf, h0]

/-- Witness for C10 on concrete inputs. -/
theorem C10_witness :
    initForce 1 32 (1 / 10) [] = .ok (zeroState (1 / 10)) ∧
      (zeroState (1 / 10)).paramsAllocated = false ∧
      (zeroState (1 / 10)).gtreeCreated = false ∧
      (zeroState (1 / 10)).pinnedAllocated = false ∧
      (zeroState (1 / 10)).radiusVector1 = [] ∧
      (zeroState (1 / 10)).radiusVector2 = [] ∧
      (zeroState (1 / 10)).gammaVector1 = [] ∧
      (zeroState (1 / 10)).gammaVector2 = [] ∧
      (zeroState (1 / 10)).ishydrogenVector = [] ∧
      copyParametersToContext (zeroState (1 / 10)) [] = .ok (zeroState (1 / 10)) :=
  C10_zero_atoms_no_allocation 1 32 (1 / 10) (by decide) (zeroState (1 / 10)) rfl []
    rfl

/-! ## C4 -/

/-- Entrywise value of the budget vector: the source's
`saved > cur ? saved : cur + 1` is `max saved (cur + 1)`. -/
theorem noverlapsUsed_getD : ∀ (saved cur : List ℕ) (i : ℕ),
    i < saved.length → i < cur.length →
    (noverlapsUsed saved cur).getD i 0 =
      max (saved.getD i 0) (cur.getD i 0 + 1)
  | [], _, i, h1, _ => absurd h1 (by simp)
  | _ :: _, [], _, _, h2 => absurd h2 (by simp)
  | s :: saved, c :: cur, 0, _, _ => by
    simp only [noverlapsUsed, List.zipWith, List.getD_cons_zero]
    split <;> omega
  | s :: saved, c :: cur, i + 1, h1, h2 => by
    simp only [noverlapsUsed, List.zipWith, List.getD_cons_succ]
    exact noverlapsUsed_getD saved cur i (by simpa using h1) (by simpa using h2)

/-- C4: on a tree-size initialization with saved counts present, the budget
used for atom `i` is `max(saved_noverlaps[i], noverlaps_current[i] + 1)`,
`saved_noverlaps` is updated to the budget vector, and the saved budget never
decreases. -/
theorem C4_budget_retains_max (t : TreeState) (n pna ncu pad : ℕ)
    (cur : List ℕ) (hs : t.has_saved_noverlaps = true)
    (hl : t.saved_noverlaps.length = n) (hc : cur.length = n) :
    (t.init_tree_size n pna ncu pad cur).saved_noverlaps =
        noverlapsUsed t.saved_noverlaps cur ∧
      ∀ i, i < n →
        (t.init_tree_size n pna ncu pad cur).saved_noverlaps.getD i 0 =
            max (t.saved_noverlaps.getD i 0) (cur.getD i 0 + 1) ∧
          t.saved_noverlaps.getD i 0 ≤
            (t.init_tree_size n pna ncu pad cur).saved_noverlaps.getD i 0 := by
  have heq : (t.init_tree_size n pna ncu pad cur).saved_noverlaps =
      noverlapsUsed t.saved_noverlaps cur := by
    simp [TreeState.init_tree_size, hs]
  refine ⟨heq, fun i hi => ?_⟩
  rw [heq, noverlapsUsed_getD t.saved_noverlaps cur i (by omega) (by omega)]
  exact ⟨rfl, Nat.le_max_left _ _⟩

/-- Witness for C4 on concrete inputs (saved budgets `[3, 1]`, current
estimate `[1, 4]`). -/
theorem C4_witness :
    ({ freshTree with
          has_saved_noverlaps := true
          saved_noverlaps := [3, 1] } : TreeState).has_saved_noverlaps = true ∧
      (({ freshTree with
            has_saved_noverlaps := true
            saved_noverlaps := [3, 1] } : TreeState).init_tree_size 2 2 2 4
            [1, 4]).saved_noverlaps = noverlapsUsed [3, 1] [1, 4] ∧
        ∀ i, i < 2 →
          (({ freshTree with
                has_saved_noverlaps := true
                saved_noverlaps := [3, 1] } : TreeState).init_tree_size 2 2 2 4
                [1, 4]).saved_noverlaps.getD i 0 =
              max (([3, 1] : List ℕ).getD i 0) (([1, 4] : List ℕ).getD i 0 + 1) ∧
            ([3, 1] : List ℕ).getD i 0 ≤
              (({ freshTree with
                    has_saved_noverlaps := true
                    saved_noverlaps := [3, 1] } : TreeState).init_tree_size 2 2 2 4
                  [1, 4]).saved_noverlaps.getD i 0 :=
  ⟨rfl, C4_budget_retains_max
    { freshTree with has_saved_noverlaps := true, saved_noverlaps := [3, 1] }
    2 2 2 4 [1, 4] rfl rfl rfl⟩

/-! ## C3 -/

/-- `Except.map` does not change whether a computation threw. -/
theorem isError_map {α β : Type} (f : α → β) (e : Except GKError α) :
    isError (e.map f) = isError e := by
  cases e <;> rfl

/-- The γ of the first non-hydrogen particle, if any. -/
def firstHeavyGamma (l : List Particle) : Option ℚ :=
  (l.find? (fun p => !p.ishydrogen)).map Particle.gamma

/-- Once the running `common_gamma` is nonnegative it is never replaced, and
the scan throws exactly when some later heavy atom differs from it by squared
difference exceeding `1e-6`. -/
theorem initLoop_errs_of_nonneg (r cg : ℚ) (hcg : 0 ≤ cg) :
    ∀ l : List Particle,
      isError (initParticleLoop r l cg) = true ↔
        ∃ p ∈ l, p.ishydrogen = false ∧ (cg - p.gamma) ^ 2 > 1 / 1000000
  | [] => by simp [initParticleLoop, isError]
  | p :: rest => by
    have hc1 : ¬(cg < 0 ∧ p.ishydrogen = false) := by
      rintro ⟨h1, _⟩
      exact absurd h1 (not_lt.mpr hcg)
    by_cases hp : p.ishydrogen = false ∧ (cg - p.gamma) ^ 2 > 1 / 1000000
    · simp only [initParticleLoop, if_neg hc1, if_pos hp]
      simp only [isError, List.mem_cons]
      constructor
      · intro _
        exact ⟨p, Or.inl rfl, hp⟩
      · intro _
        trivial
    · simp only [initParticleLoop, if_neg hc1, if_neg hp, isError_map]
      rw [initLoop_errs_of_nonneg r cg hcg rest]
      simp only [List.mem_cons]
      constructor
      · rintro ⟨q, hq, hq2⟩
        exact ⟨q, Or.inr hq, hq2⟩
      · rintro ⟨q, hq | hq, hq2⟩
        · exact absurd (hq ▸ hq2) hp
        · exact ⟨q, hq, hq2⟩

/-- With all γ nonnegative and a negative running `common_gamma`, the scan
throws exactly when some heavy atom differs from the first heavy atom's γ by
squared difference exceeding `1e-6`. -/
theorem initLoop_errs_of_neg (r : ℚ) :
    ∀ (l : List Particle) (cg : ℚ), cg < 0 → (∀ p ∈ l, 0 ≤ p.gamma) →
      (isError (initParticleLoop r l cg) = true ↔
        ∃ g0, firstHeavyGamma l = some g0 ∧
          ∃ p ∈ l, p.ishydrogen = false ∧ (g0 - p.gamma) ^ 2 > 1 / 1000000)
  | [], cg, _, _ => by simp [initParticleLoop, isError, firstHeavyGamma]
  | p :: rest, cg, hcg, hpos => by
    by_cases hhyd : p.ishydrogen
    · have hc1 : ¬(cg < 0 ∧ p.ishydrogen = false) := by simp [hhyd]
      have hc2 : ¬(p.ishydrogen = false ∧ (cg - p.gamma) ^ 2 > 1 / 1000000) := by
        simp [hhyd]
      simp only [initParticleLoop, if_neg hc1, if_neg hc2, isError_map]
      rw [initLoop_errs_of_neg r rest cg hcg
        (fun q hq => hpos q (List.mem_cons_of_mem _ hq))]
      have hfh : firstHeavyGamma (p :: rest) = firstHeavyGamma rest := by
        simp [firstHeavyGamma, List.find?_cons, hhyd]
      rw [hfh]
      constructor
      · rintro ⟨g0, hg0, q, hq, hq2⟩
        exact ⟨g0, hg0, q, List.mem_cons_of_mem _ hq, hq2⟩
      · rintro ⟨g0, hg0, q, hq, hq2⟩
        rcases List.mem_cons.mp hq with hq' | hq'
        · exact absurd (hq' ▸ hq2.1) (by simp [hhyd])
        · exact ⟨g0, hg0, q, hq', hq2⟩
    · have hc1 : cg < 0 ∧ p.ishydrogen = false := ⟨hcg, by simpa using hhyd⟩
      simp only [initParticleLoop, if_pos hc1, isError_map]
      rw [initLoop_errs_of_nonneg r p.gamma (hpos p (List.mem_cons_self _ _)) rest]
      have hfh : firstHeavyGamma (p :: rest) = some p.gamma := by
        simp [firstHeavyGamma, List.find?_cons, hhyd]
      rw [hfh]
      constructor
      · rintro ⟨q, hq, hq2⟩
        exact ⟨p.gamma, rfl, q, List.mem_cons_of_mem _ hq, hq2⟩
      · rintro ⟨g0, hg0, q, hq, hq2⟩
        have hg0' : p.gamma = g0 := by
          simpa using hg0
        subst hg0'
        rcases List.mem_cons.mp hq with hq' | hq'
        · subst hq'
          norm_num at hq2
        · exact ⟨q, hq', hq2⟩

/-- C3 (amended): when all γ values are nonnegative, `initialize` raises an
exception if and only if more than one device context is in use, or some
non-hydrogen atom's γ differs from the γ of the *first* non-hydrogen atom by
squared difference exceeding `1e-6`. (The scan compares against a running
reference that starts at `-1` and is replaced by the first heavy atom's γ;
with negative γ values the reference can keep being replaced, so
heterogeneous γ is then not necessarily rejected.) Zero-particle systems are
accepted without error. -/
theorem C3_gamma_check_iff (c pad : ℕ) (r : ℚ) (parts : List Particle)
    (hpos : ∀ p ∈ parts, 0 ≤ p.gamma) :
    isError (initForce c pad r parts) = true ↔
      (1 < c ∨ ∃ g0, firstHeavyGamma parts = some g0 ∧
        ∃ p ∈ parts, p.ishydrogen = false ∧ (g0 - p.gamma) ^ 2 > 1 / 1000000) := by
  by_cases hc : c > 1
  · simp [initForce, hc, isError]
  · rcases Nat.eq_zero_or_pos parts.length with hn | hn
    · rw [List.length_eq_zero] at hn
      subst hn
      simp [initForce, hc, isError, firstHeavyGamma]
    · have hn' : ¬parts.length = 0 := by omega
      simp only [initForce, if_neg hc, if_neg hn']
      rw [or_iff_right hc]
      rw [← initLoop_errs_of_neg r parts (-1) (by norm_num) hpos]
      rcases hE : initParticleLoop r parts (-1) with e | ok
      · simp [isError]
      · simp [isError]

/-- Two heavy particles with γ of opposite signs (squared difference 4). -/
def partsNegGamma : List Particle :=
  [⟨3 / 20, -1, false⟩, ⟨3 / 20, 1, false⟩]

/-- Two heavy particles with distinct nonnegative γ. -/
def partsHetero : List Particle :=
  [⟨3 / 20, 1 / 10, false⟩, ⟨3 / 20, 2 / 10, false⟩]

/-- C3 counterexample to the claim as stated: one context, two non-hydrogen
atoms whose γ values differ by squared difference `4 > 1e-6`, yet
`initialize` completes without an exception (the first atom's negative γ
leaves the running reference negative, so the second heavy atom replaces it
instead of being compared). -/
theorem C3_counterexample :
    isError (initForce 1 32 (1 / 10) partsNegGamma) = false ∧
      ∃ p ∈ partsNegGamma, ∃ q ∈ partsNegGamma,
        p.ishydrogen = false ∧ q.ishydrogen = false ∧
          (p.gamma - q.gamma) ^ 2 > 1 / 1000000 := by
  constructor
  · simp [partsNegGamma, initForce, initParticleLoop, isError, Except.map]
  · refine ⟨⟨3 / 20, -1, false⟩, by simp [partsNegGamma],
      ⟨3 / 20, 1, false⟩, by simp [partsNegGamma], rfl, rfl, by norm_num⟩

/-- Witness for C3 at a concrete heterogeneous-γ input. -/
theorem C3_witness :
    (∀ p ∈ partsHetero, 0 ≤ p.gamma) ∧
      (isError (initForce 1 32 (1 / 10) partsHetero) = true ↔
        (1 < 1 ∨ ∃ g0, firstHeavyGamma partsHetero = some g0 ∧
          ∃ p ∈ partsHetero, p.ishydrogen = false ∧
            (g0 - p.gamma) ^ 2 > 1 / 1000000)) :=
  ⟨by
    intro p hp
    simp only [partsHetero, List.mem_cons, List.not_mem_nil, or_false] at hp
    rcases hp with rfl | rfl <;> norm_num,
    C3_gamma_check_iff 1 32 (1 / 10) partsHetero (by
      intro p hp
      simp only [partsHetero, List.mem_cons, List.not_mem_nil, or_false] at hp
      rcases hp with rfl | rfl <;> norm_num)⟩

/-! ## C5 -/

/-- The section-size accumulation loop is the sum of the budgets over the
accumulated atoms. -/
theorem foldl_add_eq_sum (f : ℕ → ℕ) :
    ∀ (l : List ℕ) (a : ℕ), l.foldl (fun acc i => acc + f i) a = a + (l.map f).sum
  | [], a => by simp
  | x :: l, a => by
    simp only [List.foldl_cons, List.map_cons, List.sum_cons]
    rw [foldl_add_eq_sum f l (a + f x)]
    omega

/-- Indexing a list built by mapping over `List.range`. -/
theorem getD_map_range {α : Type} (f : ℕ → α) (d : α) (S s : ℕ) (h : s < S) :
    ((List.range S).map f).getD s d = f s := by
  have hlen : s < ((List.range S).map f).length := by simpa using h
  rw [List.getD_eq_getElem _ _ hlen, List.getElem_map, List.getElem_range]

/-- The source's clamp `raw < 1 ? 1 : raw` is `max raw 1`. -/
theorem ite_one_max (raw : ℕ) : (if raw < 1 then 1 else raw) = max raw 1 := by
  rcases Nat.lt_or_ge raw 1 with h | h
  · rw [if_pos h]
    omega
  · rw [if_neg (by omega)]
    omega

/-- C5 (amended): each section's padded capacity equals its raw size (the sum
of the overlap budgets of its member atoms, taken as at least 1) multiplied
by `tree_size_boost` and rounded up to the next multiple of the pad modulus;
`tree_size_boost` defaults to 2 but is *never* modified — in particular it is
not doubled on regrow (`execute` leaves it unchanged through panic and
reinitialization alike). -/
theorem C5_padded_section_size (t : TreeState) (n pna S pad : ℕ)
    (cur : List ℕ) (s : ℕ) (hs : s < S) (cfg : Config) (st : GKState)
    (dev : DeviceRun) :
    (t.init_tree_size n pna S pad cur).padded_tree_size.getD s 0 =
        pad * ((max ((((List.range n).filter (fun i =>
            sectionOfAtom (noverlapsUsed (if t.has_saved_noverlaps then
              t.saved_noverlaps else List.replicate n 0) cur) S i == s)).map
            (fun i => (noverlapsUsed (if t.has_saved_noverlaps then
              t.saved_noverlaps else List.replicate n 0) cur).getD i 0)).sum) 1 *
            t.tree_size_boost + pad - 1) / pad) ∧
      (execute cfg st dev).state.tree.tree_size_boost =
        st.tree.tree_size_boost := by
  constructor
  · have hfil : ∀ budgets : List ℕ, (List.range n).filter (fun i =>
          ((List.range n).map (sectionOfAtom budgets S)).getD i 0 == s) =
        (List.range n).filter (fun i => sectionOfAtom budgets S i == s) := by
      intro budgets
      apply List.filter_congr
      intro i hi
      rw [List.mem_range] at hi
      rw [getD_map_range _ _ n i hi]
    simp only [TreeState.init_tree_size]
    rw [List.map_map, getD_map_range _ _ S s hs]
    simp only [Function.comp_apply, paddedSize, ite_one_max]
    rw [foldl_add_eq_sum, zero_add, hfil]
  · simp only [execute, executeGVolSA, executeInitKernels, TreeState.init_tree_size,
      TreeState.resize_tree_buffers]
    split_ifs <;> rfl

/-- C5 counterexample to the "doubled on regrow" part of the claim as
stated: a panicking step followed by the forced reinitialization leaves
`tree_size_boost` at its default 2 — it is never doubled. -/
theorem C5_counterexample :
    (execute cfgDemo stDemo devPanic).state.hasInitializedKernels = false ∧
      (execute cfgDemo (execute cfgDemo stDemo devPanic).state devOk).ranInit = true ∧
      stDemo.tree.tree_size_boost = 2 ∧
      (execute cfgDemo (execute cfgDemo stDemo devPanic).state
          devOk).state.tree.tree_size_boost = 2 ∧
      (2 : ℕ) ≠ 4 := by
  decide

/-- Witness for C5 at a concrete layout (2 atoms, 2 sections, pad 4). -/
theorem C5_witness :
    (freshTree.init_tree_size 2 2 2 4 [0, 0]).padded_tree_size.getD 0 0 =
        4 * ((max ((((List.range 2).filter (fun i =>
            sectionOfAtom (noverlapsUsed (if freshTree.has_saved_noverlaps then
              freshTree.saved_noverlaps else List.replicate 2 0) [0, 0]) 2 i == 0)).map
            (fun i => (noverlapsUsed (if freshTree.has_saved_noverlaps then
              freshTree.saved_noverlaps else List.replicate 2 0) [0, 0]).getD i 0)).sum) 1 *
            freshTree.tree_size_boost + 4 - 1) / 4) ∧
      (execute cfgDemo stDemo devOk).state.tree.tree_size_boost =
        stDemo.tree.tree_size_boost :=
  C5_padded_section_size freshTree 2 2 2 4 [0, 0] 0 (by decide) cfgDemo stDemo devOk

/-! ## C8 -/

/-- Placeholder particle for total indexing (`getD`). -/
def pDefault : Particle := ⟨0, 0, false⟩

/-- The validation loop of `copyParametersToContext` throws exactly when some
index fails the radius check or the hydrogen-flag check. -/
theorem copyLoop_errs (r : ℚ) (rv2 : List ℚ) (hv : List Bool) :
    ∀ (l : List Particle) (i : ℕ),
      isError (copyLoop r rv2 hv l i) = true ↔
        ∃ j, j < l.length ∧
          ((rv2.getD (i + j) 0 - (l.getD j pDefault).radius) ^ 2 > 1 / 1000000 ∨
            hv.getD (i + j) false ≠ (l.getD j pDefault).ishydrogen)
  | [], i => by simp [copyLoop, isError]
  | p :: rest, i => by
    by_cases h1 : (rv2.getD i 0 - p.radius) ^ 2 > 1 / 1000000
    · simp only [copyLoop, if_pos h1, isError, true_iff]
      exact ⟨0, by simp, Or.inl (by simpa using h1)⟩
    · by_cases h2 : hv.getD i false ≠ p.ishydrogen
      · simp only [copyLoop, if_neg h1, if_pos h2, isError, true_iff]
        exact ⟨0, by simp, Or.inr (by simpa using h2)⟩
      · simp only [copyLoop, if_neg h1, if_neg h2, isError_map]
        rw [copyLoop_errs r rv2 hv rest (i + 1)]
        constructor
        · rintro ⟨j, hj, hP⟩
          refine ⟨j + 1, ?_, ?_⟩
          · simp only [List.length_cons]
            omega
          · have hidx : i + (j + 1) = i + 1 + j := by omega
            rw [hidx]
            simpa using hP
        · rintro ⟨j, hj, hP⟩
          cases j with
          | zero =>
            simp only [Nat.add_zero, List.getD_cons_zero] at hP
            rcases hP with hP | hP
            · exact absurd hP h1
            · exact absurd hP h2
          | succ j =>
            refine ⟨j, ?_, ?_⟩
            · simp only [List.length_cons] at hj
              omega
            · have hidx : i + 1 + j = i + (j + 1) := by omega
              rw [hidx]
              simpa using hP

/-- On success the validation loop returns the new per-atom γ parameters
`γ/roffset` (0 for hydrogens). -/
theorem copyLoop_ok (r : ℚ) (rv2 : List ℚ) (hv : List Bool) :
    ∀ (l : List Particle) (i : ℕ) (core : List ℚ),
      copyLoop r rv2 hv l i = .ok core →
      core = l.map (fun p => if p.ishydrogen then 0 else p.gamma / r)
  | [], _, core => by
    simp only [copyLoop, List.map_nil]
    rintro ⟨⟩
    rfl
  | p :: rest, i, core => by
    by_cases h1 : (rv2.getD i 0 - p.radius) ^ 2 > 1 / 1000000
    · simp only [copyLoop, if_pos h1]
      rintro ⟨⟩
    · by_cases h2 : hv.getD i false ≠ p.ishydrogen
      · simp only [copyLoop, if_neg h1, if_pos h2]
        rintro ⟨⟩
      · simp only [copyLoop, if_neg h1, if_neg h2]
        rcases hE : copyLoop r rv2 hv rest (i + 1) with e | core2
        · simp only [Except.map]
          rintro ⟨⟩
        · simp only [Except.map, List.map_cons]
          rintro ⟨⟩
          rw [copyLoop_ok r rv2 hv rest (i + 1) core2 hE]

/-- C8: `copyParametersToContext` throws exactly when the particle count
differs from the initialized count, some atom's radius differs from the
stored nominal radius (squared difference exceeding `1e-6`), or some atom's
hydrogen flag changed; on success it rewrites only the two gamma vectors and
uploads them to the two gamma parameter arrays, leaving the radius arrays,
the hydrogen-flag array, the overlap-tree state and every other field
unchanged. -/
theorem C8_copyParameters_gamma_only (st : GKState) (force : List Particle)
    (st2 : GKState) :
    (isError (copyParametersToContext st force) = true ↔
      (force.length ≠ st.numParticles ∨
        ∃ j, j < force.length ∧
          ((st.radiusVector2.getD j 0 - (force.getD j pDefault).radius) ^ 2 >
              1 / 1000000 ∨
            st.ishydrogenVector.getD j false ≠
              (force.getD j pDefault).ishydrogen))) ∧
    (copyParametersToContext st force = .ok st2 →
      st2.radiusVector1 = st.radiusVector1 ∧
      st2.radiusVector2 = st.radiusVector2 ∧
      st2.ishydrogenVector = st.ishydrogenVector ∧
      st2.radiusParam1 = st.radiusParam1 ∧
      st2.radiusParam2 = st.radiusParam2 ∧
      st2.ishydrogenParam = st.ishydrogenParam ∧
      st2.tree = st.tree ∧
      st2.roffset = st.roffset ∧
      st2.numParticles = st.numParticles ∧
      st2.paramsAllocated = st.paramsAllocated ∧
      st2.gtreeCreated = st.gtreeCreated ∧
      st2.pinnedAllocated = st.pinnedAllocated ∧
      st2.common_gamma = st.common_gamma ∧
      st2.hasCreatedKernels = st.hasCreatedKernels ∧
      st2.hasInitializedKernels = st.hasInitializedKernels ∧
      st2.forcesValid = st.forcesValid ∧
      st2.niterations = st.niterations ∧
      st2.gammaVector1 = setCore st.gammaVector1
        (force.map (fun p => if p.ishydrogen then 0 else p.gamma / st.roffset)) ∧
      st2.gammaVector2 = setCore st.gammaVector2
        ((force.map (fun p => if p.ishydrogen then 0 else
          p.gamma / st.roffset)).map Neg.neg) ∧
      (st.numParticles ≠ 0 → st2.gammaParam1 = st2.gammaVector1 ∧
        st2.gammaParam2 = st2.gammaVector2) ∧
      (st.numParticles = 0 → st2 = st)) := by
  constructor
  · by_cases hcount : force.length ≠ st.numParticles
    · simp [copyParametersToContext, hcount, isError]
    · by_cases h0 : st.numParticles = 0
      · have hf0 : force.length = 0 := by omega
        simp only [copyParametersToContext, if_neg hcount, if_pos h0, isError,
          Bool.false_eq_true, false_iff]
        intro hcon
        rcases hcon with hcon | ⟨j, hj, _⟩
        · exact hcount hcon
        · omega
      · simp only [copyParametersToContext, if_neg hcount, if_neg h0]
        have hloop := copyLoop_errs st.roffset st.radiusVector2
          st.ishydrogenVector force 0
        simp only [Nat.zero_add] at hloop
        rcases hE : copyLoop st.roffset st.radiusVector2 st.ishydrogenVector
          force 0 with e | core <;> rw [hE] at hloop
        · simp only [isError, true_iff] at hloop ⊢
          exact Or.inr hloop
        · simp only [isError, Bool.false_eq_true, false_iff] at hloop ⊢
          intro hcon
          rcases hcon with hcon | hcon
          · exact hcount hcon
          · exact hloop hcon
  · intro hok
    by_cases hcount : force.length ≠ st.numParticles
    · simp only [copyParametersToContext, if_pos hcount] at hok
      cases hok
    · by_cases h0 : st.numParticles = 0
      · have hf0 : force = [] := by
          rw [← List.length_eq_zero]
          omega
        subst hf0
        simp only [copyParametersToContext, if_neg hcount, if_pos h0] at hok
        injection hok with hok2
        subst hok2
        refine ⟨rfl, rfl, rfl, rfl, rfl, rfl, rfl, rfl, rfl, rfl, rfl, rfl, rfl,
          rfl, rfl, rfl, rfl, by simp [setCore], by simp [setCore],
          fun h => absurd h0 h, fun _ => rfl⟩
      · simp only [copyParametersToContext, if_neg hcount, if_neg h0] at hok
        rcases hE : copyLoop st.roffset st.radiusVector2 st.ishydrogenVector
          force 0 with e | core
        · rw [hE] at hok
          cases hok
        · rw [hE] at hok
          have hcore := copyLoop_ok st.roffset st.radiusVector2
            st.ishydrogenVector force 0 core hE
          injection hok with hok2
          subst hok2
          subst hcore
          exact ⟨rfl, rfl, rfl, rfl, rfl, rfl, rfl, rfl, rfl, rfl, rfl, rfl, rfl,
            rfl, rfl, rfl, rfl, rfl, rfl, fun _ => ⟨rfl, rfl⟩, fun h => absurd h h0⟩

/-- A parameter update for `stDemo` that changes only γ (to `1/5`). -/
def forceW : List Particle :=
  [⟨3 / 20, 1 / 5, false⟩, ⟨3 / 20, 1 / 5, false⟩, ⟨3 / 20, 1 / 5, false⟩,
    ⟨3 / 20, 1 / 5, false⟩, ⟨3 / 20, 1 / 5, false⟩]

/-- The state after updating `stDemo` with `forceW`: only the gamma vectors
and gamma parameter arrays change (`(1/5)/(1/10) = 2`). -/
def st2Demo : GKState :=
  { stDemo with
    gammaVector1 := [2, 2, 2, 2, 2]
    gammaVector2 := [-2, -2, -2, -2, -2]
    gammaParam1 := [2, 2, 2, 2, 2]
    gammaParam2 := [-2, -2, -2, -2, -2] }

/-- Witness for C8 at a concrete successful parameter update. -/
theorem C8_witness :
    copyParametersToContext stDemo forceW = .ok st2Demo ∧
      st2Demo.radiusVector1 = stDemo.radiusVector1 := by
  have hok : copyParametersToContext stDemo forceW = .ok st2Demo := by
    simp only [copyParametersToContext, copyLoop, stDemo, forceW, st2Demo, setCore,
      Except.map]
    norm_num
  exact ⟨hok, ((C8_copyParameters_gamma_only stDemo forceW st2Demo).2 hok).1⟩

/-! ## C9 -/

/-- The per-atom record the `initialize` loop writes for particle `p`. -/
def entryOf (r : ℚ) (p : Particle) : PEntry :=
  { rv1 := p.radius + r
    rv2 := p.radius
    gv1 := if p.ishydrogen then 0 else p.gamma / r
    gv2 := -(if p.ishydrogen then 0 else p.gamma / r)
    hyd := p.ishydrogen }

/-- On success the `initialize` loop records exactly `entryOf` per atom. -/
theorem initLoop_ok_entries (r : ℚ) :
    ∀ (l : List Particle) (cg : ℚ) (entries : List PEntry) (cg2 : ℚ),
      initParticleLoop r l cg = .ok (entries, cg2) →
      entries = l.map (entryOf r)
  | [], cg, entries, cg2 => by
    simp only [initParticleLoop, List.map_nil]
    rintro ⟨⟩
    rfl
  | p :: rest, cg, entries, cg2 => by
    simp only [initParticleLoop, List.map_cons]
    split
    · rcases hE : initParticleLoop r rest p.gamma with e | ok2
      · simp only [hE, Except.map]
        rintro ⟨⟩
      · simp only [hE, Except.map]
        rintro ⟨⟩
        rw [initLoop_ok_entries r rest p.gamma ok2.1 ok2.2 (by rw [hE])]
        rfl
    · split
      · rintro ⟨⟩
      · rcases hE : initParticleLoop r rest cg with e | ok2
        · simp only [hE, Except.map]
          rintro ⟨⟩
        · simp only [hE, Except.map]
          rintro ⟨⟩
          rw [initLoop_ok_entries r rest cg ok2.1 ok2.2 (by rw [hE])]
          rfl

/-- Indexing the empty list yields the default. -/
theorem getD_nil {α : Type} (d : α) : ∀ i : ℕ, ([] : List α).getD i d = d
  | 0 => rfl
  | _ + 1 => rfl

/-- Indexing a replicated list yields the replicated value. -/
theorem getD_replicate {α : Type} (d : α) :
    ∀ (k i : ℕ), (List.replicate k d).getD i d = d
  | 0, _ => rfl
  | _ + 1, 0 => rfl
  | k + 1, i + 1 => getD_replicate d k i

/-- `resize` padding does not change indexed reads whose default is the pad
value. -/
theorem getD_padTo {α : Type} (d : α) :
    ∀ (l : List α) (n i : ℕ), (padTo d n l).getD i d = l.getD i d
  | [], n, i => by
    simp only [padTo, List.nil_append, List.length_nil, Nat.sub_zero]
    rw [getD_replicate]
    cases i <;> rfl
  | x :: l, n, 0 => by simp [padTo]
  | x :: l, n, i + 1 => by
    have hstep : padTo d n (x :: l) = x :: padTo d (n - 1) l := by
      simp only [padTo, List.cons_append, List.length_cons]
      congr 3
      omega
    rw [hstep, List.getD_cons_succ, List.getD_cons_succ, getD_padTo d l (n - 1) i]

/-- Indexing a mapped list inside its length. -/
theorem getD_map {α β : Type} (f : α → β) (dA : α) (dB : β) :
    ∀ (l : List α) (i : ℕ), i < l.length →
      (l.map f).getD i dB = f (l.getD i dA)
  | [], i, h => absurd h (by simp)
  | x :: l, 0, _ => rfl
  | x :: l, i + 1, h => by
    simp only [List.map_cons, List.getD_cons_succ]
    exact getD_map f dA dB l i (by simpa using h)

/-- Indexing a mapped list beyond its length yields the default. -/
theorem getD_map_ge {α β : Type} (f : α → β) (dB : β) :
    ∀ (l : List α) (i : ℕ), l.length ≤ i → (l.map f).getD i dB = dB
  | [], i, _ => by cases i <;> rfl
  | x :: l, 0, h => absurd h (by simp)
  | x :: l, i + 1, h => by
    simp only [List.map_cons, List.getD_cons_succ]
    exact getD_map_ge f dB l i (by simpa using h)

/-- Indexing a dropped list. -/
theorem getD_drop {α : Type} (d : α) :
    ∀ (k : ℕ) (l : List α) (j : ℕ), (l.drop k).getD j d = l.getD (k + j) d
  | 0, l, j => by simp
  | _ + 1, [], j => by cases j <;> rfl
  | k + 1, x :: l, j => by
    simp only [List.drop_succ_cons]
    rw [getD_drop d k l j]
    have : k + 1 + j = (k + j) + 1 := by omega
    rw [this, List.getD_cons_succ]

/-- Reading an overwritten index after the core assignment loop. -/
theorem getD_setCore_lt {α : Type} (d : α) (old core : List α) (i : ℕ)
    (h : i < core.length) : (setCore old core).getD i d = core.getD i d := by
  rw [setCore, List.getD_append _ _ _ _ h]

/-- Reading an untouched index after the core assignment loop. -/
theorem getD_setCore_ge {α : Type} (d : α) (old core : List α) (i : ℕ)
    (h : core.length ≤ i) : (setCore old core).getD i d = old.getD i d := by
  rw [setCore]
  rw [List.getD_eq_getElem?_getD, List.getElem?_append_right h,
    ← List.getD_eq_getElem?_getD, getD_drop]
  congr 1
  omega

/-- C9: for every atom, the second-pass gamma parameter is the negation of
the first-pass one — `γ/roffset` and `-γ/roffset` for non-hydrogen atoms,
both exactly zero for hydrogen atoms (and for the padding entries). The
relation is established by `initialize` and preserved through every
successful `copyParametersToContext`. -/
theorem C9_signed_gamma_pair (c pad : ℕ) (r : ℚ) (parts : List Particle) (st : GKState)
    (stA : GKState) (force : List Particle) (stB : GKState) (i : ℕ) :
    (initForce c pad r parts = .ok st →
      (st.gammaVector2.getD i 0 = -(st.gammaVector1.getD i 0) ∧
        (i < parts.length →
          st.gammaVector1.getD i 0 =
            (if (parts.getD i pDefault).ishydrogen then 0
              else (parts.getD i pDefault).gamma / r)))) ∧
    (copyParametersToContext stA force = .ok stB →
      stA.gammaVector2.getD i 0 = -(stA.gammaVector1.getD i 0) →
      (stB.gammaVector2.getD i 0 = -(stB.gammaVector1.getD i 0) ∧
        (i < force.length →
          stB.gammaVector1.getD i 0 =
            (if (force.getD i pDefault).ishydrogen then 0
              else (force.getD i pDefault).gamma / stA.roffset)))) := by
  constructor
  · intro hok
    by_cases hc : c > 1
    · simp [initForce, hc] at hok
    · by_cases hn : parts.length = 0
      · rw [List.length_eq_zero] at hn
        subst hn
        simp only [initForce, if_neg hc, if_pos rfl] at hok
        injection hok with hok2
        subst hok2
        refine ⟨?_, fun h => absurd h (by simp)⟩
        show (([] : List ℚ).getD i 0) = -(([] : List ℚ).getD i 0)
        rw [getD_nil]
        norm_num
      · simp only [initForce, if_neg hc, if_neg hn] at hok
        rcases hE : initParticleLoop r parts (-1) with e | ok2
        · rw [hE] at hok
          cases hok
        · rw [hE] at hok
          injection hok with hok2
          subst hok2
          have hent : ok2.1 = parts.map (entryOf r) :=
            initLoop_ok_entries r parts (-1) ok2.1 ok2.2 (by rw [hE])
          constructor
          · show (padTo 0 pad (List.map PEntry.gv2 ok2.1)).getD i 0 =
              -(padTo 0 pad (List.map PEntry.gv1 ok2.1)).getD i 0
            rw [getD_padTo, getD_padTo]
            by_cases hi : i < ok2.1.length
            · rw [getD_map PEntry.gv2 ⟨0, 0, 0, 0, false⟩ 0 ok2.1 i hi,
                getD_map PEntry.gv1 ⟨0, 0, 0, 0, false⟩ 0 ok2.1 i hi]
              rw [hent]
              by_cases hi2 : i < parts.length
              · rw [List.getD_eq_getElem _ _ (by simpa using hi2),
                  List.getElem_map]
                rfl
              · rw [hent] at hi
                simp at hi
                omega
            · rw [getD_map_ge PEntry.gv2 0 ok2.1 i (by omega),
                getD_map_ge PEntry.gv1 0 ok2.1 i (by omega)]
              norm_num
          · intro hi2
            show (padTo 0 pad (List.map PEntry.gv1 ok2.1)).getD i 0 = _
            rw [getD_padTo]
            have hi : i < ok2.1.length := by
              rw [hent]
              simpa using hi2
            rw [getD_map PEntry.gv1 ⟨0, 0, 0, 0, false⟩ 0 ok2.1 i hi]
            rw [hent]
            rw [List.getD_eq_getElem _ _ (by simpa using hi2), List.getElem_map]
            have : parts[i] = parts.getD i pDefault := by
              rw [List.getD_eq_getElem _ _ hi2]
            rw [this]
            rfl
  · intro hok hrel
    have hframe := (C8_copyParameters_gamma_only stA force stB).2 hok
    have hgv1 := hframe.2.2.2.2.2.2.2.2.2.2.2.2.2.2.2.2.2.1
    have hgv2 := hframe.2.2.2.2.2.2.2.2.2.2.2.2.2.2.2.2.2.2.1
    rw [hgv1, hgv2]
    by_cases hi : i < force.length
    · have hlen1 : i < (force.map (fun p => if p.ishydrogen then 0
          else p.gamma / stA.roffset)).length := by simpa using hi
      constructor
      · rw [getD_setCore_lt _ _ _ _ (by simpa using hi),
          getD_setCore_lt _ _ _ _ hlen1]
        rw [getD_map Neg.neg 0 0 _ i hlen1]
      · intro _
        rw [getD_setCore_lt _ _ _ _ hlen1]
        rw [getD_map (fun p => if p.ishydrogen then 0 else p.gamma / stA.roffset)
          pDefault 0 force i hi]
    · have hlen1 : (force.map (fun p => if p.ishydrogen then 0
          else p.gamma / stA.roffset)).length ≤ i := by
        simp only [List.length_map]
        omega
      constructor
      · rw [getD_setCore_ge _ _ _ _ (by simpa using hlen1),
          getD_setCore_ge _ _ _ _ hlen1]
        exact hrel
      · intro hcon
        omega


/-- Witness for C9: the relation after a concrete zero-atom initialization
and after a concrete successful parameter update. -/
theorem C9_witness :
    initForce 1 32 (1 / 10) [] = .ok (zeroState (1 / 10)) ∧
      (zeroState (1 / 10)).gammaVector2.getD 0 0 =
        -((zeroState (1 / 10)).gammaVector1.getD 0 0) ∧
      copyParametersToContext stDemo forceW = .ok st2Demo ∧
      stDemo.gammaVector2.getD 0 0 = -(stDemo.gammaVector1.getD 0 0) ∧
      (st2Demo.gammaVector2.getD 0 0 = -(st2Demo.gammaVector1.getD 0 0) ∧
        (0 < forceW.length →
          st2Demo.gammaVector1.getD 0 0 =
            (if (forceW.getD 0 pDefault).ishydrogen then 0
              else (forceW.getD 0 pDefault).gamma / stDemo.roffset))) := by
  have h0ok : initForce 1 32 (1 / 10) [] = .ok (zeroState (1 / 10)) := by
    simp [initForce, zeroState]
  have hok : copyParametersToContext stDemo forceW = .ok st2Demo := by
    simp only [copyParametersToContext, copyLoop, stDemo, forceW, st2Demo, setCore,
      Except.map]
    norm_num
  have hrel : stDemo.gammaVector2.getD 0 0 = -(stDemo.gammaVector1.getD 0 0) := by
    norm_num [stDemo]
  exact ⟨h0ok,
    ((C9_signed_gamma_pair 1 32 (1 / 10) [] (zeroState (1 / 10)) stDemo forceW
      st2Demo 0).1 h0ok).1,
    hok, hrel,
    (C9_signed_gamma_pair 1 32 (1 / 10) [] (zeroState (1 / 10)) stDemo forceW
      st2Demo 0).2 hok hrel⟩

/-! ## C7 -/

/-- The tree-pointer loop yields one pointer per section. -/
theorem treePointersFrom_len (off : ℕ) :
    ∀ l : List ℕ, (treePointersFrom off l).1.length = l.length
  | [] => rfl
  | sz :: rest => by
    simp only [treePointersFrom, List.length_cons]
    rw [treePointersFrom_len (off + sz) rest]

/-- The tree-pointer loop lays sections out at the running offset: entry `s`
is the starting offset plus the sizes of all earlier sections. -/
theorem treePointersFrom_getD :
    ∀ (l : List ℕ) (off s : ℕ), s < l.length →
      (treePointersFrom off l).1.getD s 0 = off + (l.take s).sum
  | [], off, s, h => absurd h (by simp)
  | sz :: rest, off, 0, _ => by simp [treePointersFrom]
  | sz :: rest, off, s + 1, h => by
    simp only [treePointersFrom, List.getD_cons_succ, List.take_succ_cons,
      List.sum_cons]
    rw [treePointersFrom_getD rest (off + sz) s (by simpa using h)]
    omega

/-- The slot-assignment inner loop leaves indices below its start alone. -/
theorem fillSec_lt :
    ∀ (k : ℕ) (T : ℕ) (f : ℕ → ℕ) (iat slot x : ℕ), x < iat →
      fillSec T f iat slot k x = f x
  | 0, _, _, _, _, _, _ => rfl
  | k + 1, T, f, iat, slot, x, hx => by
    simp only [fillSec]
    rw [fillSec_lt k T _ (iat + 1) (slot + 1) x (by omega)]
    split
    · rw [Function.update_noteq (by omega)]
    · rfl

/-- The slot-assignment inner loop leaves indices at or beyond its end
alone. -/
theorem fillSec_ge :
    ∀ (k : ℕ) (T : ℕ) (f : ℕ → ℕ) (iat slot x : ℕ), iat + k ≤ x →
      fillSec T f iat slot k x = f x
  | 0, _, _, _, _, _, _ => rfl
  | k + 1, T, f, iat, slot, x, hx => by
    simp only [fillSec]
    rw [fillSec_ge k T _ (iat + 1) (slot + 1) x (by omega)]
    split
    · rw [Function.update_noteq (by omega)]
    · rfl

/-- The slot-assignment inner loop writes `slot + offset` at each index it
visits (subject to the `total_atoms_in_tree` guard). -/
theorem fillSec_mid :
    ∀ (k : ℕ) (T : ℕ) (f : ℕ → ℕ) (iat slot x : ℕ), iat ≤ x → x < iat + k →
      x < T → fillSec T f iat slot k x = slot + (x - iat)
  | 0, _, _, iat, _, x, h1, h2, _ => absurd h2 (by omega)
  | k + 1, T, f, iat, slot, x, h1, h2, hT => by
    simp only [fillSec]
    rcases Nat.eq_or_lt_of_le h1 with heq | hlt
    · subst heq
      rw [fillSec_lt k T _ (iat + 1) (slot + 1) iat (by omega)]
      rw [if_pos hT, Function.update_same]
      omega
    · rw [fillSec_mid k T _ (iat + 1) (slot + 1) x (by omega) (by omega) hT]
      omega

/-- The layout loop never writes below its starting atom offset. -/
theorem layoutAux_frame (T : ℕ) :
    ∀ (ns szs ptrs : List ℕ) (atp : ℕ → ℕ) (total off x : ℕ), x < off →
      (layoutAux T atp total off ns szs ptrs).atp x = atp x
  | [], _, _, _, _, _, _, _ => rfl
  | _ :: _, [], _, _, _, _, _, _ => rfl
  | _ :: _, _ :: _, [], _, _, _, _, _ => rfl
  | n :: ns, sz :: szs, ptr :: ptrs, atp, total, off, x, hx => by
    simp only [layoutAux]
    rw [layoutAux_frame T ns szs ptrs _ (total + sz) (off + n) x (by omega)]
    rw [fillSec_lt n T atp off ptr x hx]

/-- The layout loop accumulates the padded section sizes into
`total_tree_size`. -/
theorem layoutAux_total (T : ℕ) :
    ∀ (ns szs ptrs : List ℕ) (atp : ℕ → ℕ) (total off : ℕ),
      ns.length = szs.length → ns.length = ptrs.length →
      (layoutAux T atp total off ns szs ptrs).total = total + szs.sum
  | [], [], [], _, total, _, _, _ => by simp [layoutAux]
  | [], _ :: _, _, _, _, _, h, _ => absurd h (by simp)
  | _ :: _, [], _, _, _, _, h, _ => absurd h (by simp)
  | _ :: _, _ :: _, [], _, _, _, _, h => absurd h (by simp)
  | n :: ns, sz :: szs, ptr :: ptrs, atp, total, off, h1, h2 => by
    simp only [layoutAux, List.sum_cons]
    rw [layoutAux_total T ns szs ptrs _ (total + sz) (off + n)
      (by simpa using h1) (by simpa using h2)]
    omega

/-- `first_atom[s]` is the starting offset plus the atom counts of all
earlier sections. -/
theorem layoutAux_firsts :
    ∀ (ns szs ptrs : List ℕ) (T : ℕ) (atp : ℕ → ℕ) (total off s : ℕ),
      ns.length = szs.length → ns.length = ptrs.length → s < ns.length →
      (layoutAux T atp total off ns szs ptrs).first_atom.getD s 0 =
        off + (ns.take s).sum
  | [], _, _, _, _, _, _, _, _, _, hs => absurd hs (by simp)
  | _ :: _, [], _, _, _, _, _, _, h, _, _ => absurd h (by simp)
  | _ :: _, _ :: _, [], _, _, _, _, _, _, h, _ => absurd h (by simp)
  | n :: ns, sz :: szs, ptr :: ptrs, T, atp, total, off, 0, _, _, _ => by
    simp [layoutAux]
  | n :: ns, sz :: szs, ptr :: ptrs, T, atp, total, off, s + 1, h1, h2, hs => by
    simp only [layoutAux, List.getD_cons_succ, List.take_succ_cons, List.sum_cons]
    rw [layoutAux_firsts ns szs ptrs T _ (total + sz) (off + n) s
      (by simpa using h1) (by simpa using h2) (by simpa using hs)]
    omega

/-- Inside section `s`, the layout loop assigns atom `x` the slot
`tree_pointer[s] + (x - first_atom[s])`. -/
theorem layoutAux_atp :
    ∀ (ns szs ptrs : List ℕ) (T : ℕ) (atp : ℕ → ℕ) (total off s : ℕ),
      ns.length = szs.length → ns.length = ptrs.length → s < ns.length →
      ∀ x : ℕ, off + (ns.take s).sum ≤ x →
        x < off + (ns.take s).sum + ns.getD s 0 → x < T →
        (layoutAux T atp total off ns szs ptrs).atp x =
          ptrs.getD s 0 + (x - (off + (ns.take s).sum))
  | [], _, _, _, _, _, _, _, _, _, hs, _, _, _, _ => absurd hs (by simp)
  | _ :: _, [], _, _, _, _, _, _, h, _, _, _, _, _, _ => absurd h (by simp)
  | _ :: _, _ :: _, [], _, _, _, _, _, _, h, _, _, _, _, _ => absurd h (by simp)
  | n :: ns, sz :: szs, ptr :: ptrs, T, atp, total, off, 0, _, _, _, x, hx1,
      hx2, hT => by
    simp only [List.take_zero, List.sum_nil, Nat.add_zero] at hx1 hx2 ⊢
    simp only [layoutAux, List.getD_cons_zero] at hx2 ⊢
    rw [layoutAux_frame T ns szs ptrs _ (total + sz) (off + n) x (by omega)]
    exact fillSec_mid n T atp off ptr x hx1 hx2 hT
  | n :: ns, sz :: szs, ptr :: ptrs, T, atp, total, off, s + 1, h1, h2, hs, x,
      hx1, hx2, hT => by
    simp only [List.take_succ_cons, List.sum_cons, List.getD_cons_succ] at hx1 hx2 ⊢
    simp only [layoutAux]
    have hre := layoutAux_atp ns szs ptrs T
      (fillSec T atp off ptr n) (total + sz) (off + n) s
      (by simpa using h1) (by simpa using h2) (by simpa using hs) x
      (by omega) (by omega) hT
    rw [hre]
    congr 1
    omega

/-- Peeling the last element off a prefix sum. -/
theorem sum_take_succ :
    ∀ (l : List ℕ) (s : ℕ), s < l.length →
      (l.take (s + 1)).sum = (l.take s).sum + l.getD s 0
  | [], _, h => absurd h (by simp)
  | x :: l, 0, _ => by simp
  | x :: l, s + 1, h => by
    simp only [List.take_succ_cons, List.sum_cons, List.getD_cons_succ]
    rw [sum_take_succ l s (by simpa using h)]
    omega

/-- A prefix sum is at most the full sum. -/
theorem sum_take_le (l : List ℕ) (k : ℕ) : (l.take k).sum ≤ l.sum := by
  conv_rhs => rw [← List.take_append_drop k l]
  rw [List.sum_append]
  omega

/-- Summing zeros over a range. -/
theorem sum_map_zero_range : ∀ S : ℕ, ((List.range S).map (fun _ => (0 : ℕ))).sum = 0
  | 0 => rfl
  | S + 1 => by
    rw [List.range_succ]
    simp [sum_map_zero_range S]

/-- Sums distribute over pointwise addition. -/
theorem sum_map_add {α : Type} (f g : α → ℕ) :
    ∀ l : List α, (l.map (fun a => f a + g a)).sum = (l.map f).sum + (l.map g).sum
  | [] => rfl
  | x :: l => by
    simp only [List.map_cons, List.sum_cons]
    rw [sum_map_add f g l]
    omega

/-- An indicator for a value outside the range sums to zero. -/
theorem sum_indicator_ge :
    ∀ (S x : ℕ), S ≤ x →
      ((List.range S).map (fun s => if x == s then 1 else 0)).sum = 0
  | 0, _, _ => rfl
  | S + 1, x, h => by
    rw [List.range_succ]
    simp only [List.map_append, List.sum_append, List.map_cons, List.map_nil,
      List.sum_cons, List.sum_nil]
    rw [sum_indicator_ge S x (by omega)]
    have : (x == S) = false := by
      simp only [beq_eq_false_iff_ne, ne_eq]
      omega
    rw [this]
    simp

/-- An indicator for a value inside the range sums to one. -/
theorem sum_indicator :
    ∀ (S x : ℕ), x < S →
      ((List.range S).map (fun s => if x == s then 1 else 0)).sum = 1
  | 0, _, h => absurd h (by omega)
  | S + 1, x, h => by
    rw [List.range_succ]
    simp only [List.map_append, List.sum_append, List.map_cons, List.map_nil,
      List.sum_cons, List.sum_nil]
    rcases Nat.lt_or_ge x S with hx | hx
    · rw [sum_indicator S x hx]
      have : (x == S) = false := by
        simp only [beq_eq_false_iff_ne, ne_eq]
        omega
      rw [this]
      simp
    · have hxS : x = S := by omega
      subst hxS
      rw [sum_indicator_ge x x (by omega)]
      simp

/-- Partition counting: when every assigned section index is in range, the
per-section atom counts sum to the number of atoms. -/
theorem sum_counts :
    ∀ (cu : List ℕ) (S : ℕ), (∀ y ∈ cu, y < S) →
      ((List.range S).map (fun s => cu.countP (fun y => y == s))).sum = cu.length
  | [], S, _ => by
    simp only [List.countP_nil]
    exact sum_map_zero_range S
  | x :: cu, S, h => by
    have hx : x < S := h x (List.mem_cons_self _ _)
    have hcu : ∀ y ∈ cu, y < S := fun y hy => h y (List.mem_cons_of_mem _ hy)
    simp only [List.countP_cons]
    rw [sum_map_add (fun s => cu.countP (fun y => y == s))
      (fun s => if x == s then 1 else 0) (List.range S)]
    rw [sum_counts cu S hcu, sum_indicator S x hx]
    simp

/-- Layout correctness for the final loops of `init_tree_size`, over
arbitrary per-section atom counts and padded sizes: cumulative tree
pointers, total size, and the per-atom slot formula. -/
theorem init_layout_general (natoms padded : List ℕ) (n : ℕ)
    (hlen : natoms.length = padded.length) (hsum : natoms.sum ≤ n) (s : ℕ)
    (hs : s < natoms.length) (i : ℕ) :
    ((treePointersFrom 0 padded).1.getD s 0 = (padded.take s).sum) ∧
      ((layoutAux n (fun _ => 0) 0 0 natoms padded
          (treePointersFrom 0 padded).1).total = padded.sum) ∧
      ((layoutAux n (fun _ => 0) 0 0 natoms padded
            (treePointersFrom 0 padded).1).first_atom.getD s 0 ≤ i →
        i < (layoutAux n (fun _ => 0) 0 0 natoms padded
              (treePointersFrom 0 padded).1).first_atom.getD s 0 +
            natoms.getD s 0 →
        (layoutAux n (fun _ => 0) 0 0 natoms padded
            (treePointersFrom 0 padded).1).atp i =
          (treePointersFrom 0 padded).1.getD s 0 +
            (i - (layoutAux n (fun _ => 0) 0 0 natoms padded
                (treePointersFrom 0 padded).1).first_atom.getD s 0)) := by
  have hlenPT : (treePointersFrom 0 padded).1.length = padded.length :=
    treePointersFrom_len 0 padded
  have hsP : s < padded.length := by omega
  have hA : (treePointersFrom 0 padded).1.getD s 0 = (padded.take s).sum := by
    rw [treePointersFrom_getD padded 0 s hsP]
    omega
  have hF : (layoutAux n (fun _ => 0) 0 0 natoms padded
      (treePointersFrom 0 padded).1).first_atom.getD s 0 = (natoms.take s).sum := by
    rw [layoutAux_firsts natoms padded (treePointersFrom 0 padded).1 n
      (fun _ => 0) 0 0 s hlen (by omega) hs]
    omega
  refine ⟨hA, ?_, ?_⟩
  · rw [layoutAux_total n natoms padded (treePointersFrom 0 padded).1
      (fun _ => 0) 0 0 hlen (by omega)]
    omega
  · intro h1 h2
    rw [hF] at h1 h2 ⊢
    have hiT : i < n := by
      have hss := sum_take_succ natoms s hs
      have hle := sum_take_le natoms (s + 1)
      omega
    have := layoutAux_atp natoms padded (treePointersFrom 0 padded).1 n
      (fun _ => 0) 0 0 s hlen (by omega) hs i (by omega) (by omega) hiT
    rw [this, hA]
    congr 1
    omega

/-- C7: after `init_tree_size` (when every computed section index is in
range, cf. C6), section offsets are cumulative — `tree_pointer[s]` equals
the sum of the padded sizes of the sections before `s` and
`total_tree_size` is the sum of all padded section sizes — and every atom
`i` of section `s` (those with
`first_atom[s] ≤ i < first_atom[s] + natoms_in_tree[s]`) has
`atom_tree_pointer[i] = tree_pointer[s] + (i - first_atom[s])`. -/
theorem C7_cumulative_layout (t : TreeState) (n pna S pad : ℕ) (cur : List ℕ)
    (hin : ∀ j, j < n →
      (t.init_tree_size n pna S pad cur).compute_unit_of_atom.getD j 0 < S)
    (s : ℕ) (hs : s < S) (i : ℕ) :
    ((t.init_tree_size n pna S pad cur).tree_pointer.getD s 0 =
        ((t.init_tree_size n pna S pad cur).padded_tree_size.take s).sum) ∧
      ((t.init_tree_size n pna S pad cur).total_tree_size =
        (t.init_tree_size n pna S pad cur).padded_tree_size.sum) ∧
      ((t.init_tree_size n pna S pad cur).first_atom.getD s 0 ≤ i →
        i < (t.init_tree_size n pna S pad cur).first_atom.getD s 0 +
            (t.init_tree_size n pna S pad cur).natoms_in_tree.getD s 0 →
        (t.init_tree_size n pna S pad cur).atom_tree_pointer i =
          (t.init_tree_size n pna S pad cur).tree_pointer.getD s 0 +
            (i - (t.init_tree_size n pna S pad cur).first_atom.getD s 0)) := by
  simp only [TreeState.init_tree_size] at hin ⊢
  refine init_layout_general _ _ n (by simp) ?_ s (by simpa using hs) i
  have hmem : ∀ y ∈ (List.range n).map (sectionOfAtom (noverlapsUsed
      (if t.has_saved_noverlaps then t.saved_noverlaps
        else List.replicate n 0) cur) S), y < S := by
    intro y hy
    rcases List.mem_map.mp hy with ⟨j, hj, rfl⟩
    rw [List.mem_range] at hj
    have := hin j hj
    rwa [getD_map_range _ _ n j hj] at this
  rw [sum_counts _ S hmem]
  simp


/-- Witness for C7 on a concrete layout (2 atoms, 2 sections, pad 4: both
atoms land in section 0, whose tree pointer is 0). -/
theorem C7_witness :
    ((freshTree.init_tree_size 2 2 2 4 [0, 0]).tree_pointer.getD 0 0 =
        ((freshTree.init_tree_size 2 2 2 4 [0, 0]).padded_tree_size.take 0).sum) ∧
      ((freshTree.init_tree_size 2 2 2 4 [0, 0]).total_tree_size =
        (freshTree.init_tree_size 2 2 2 4 [0, 0]).padded_tree_size.sum) ∧
      ((freshTree.init_tree_size 2 2 2 4 [0, 0]).first_atom.getD 0 0 ≤ 1 →
        1 < (freshTree.init_tree_size 2 2 2 4 [0, 0]).first_atom.getD 0 0 +
            (freshTree.init_tree_size 2 2 2 4 [0, 0]).natoms_in_tree.getD 0 0 →
        (freshTree.init_tree_size 2 2 2 4 [0, 0]).atom_tree_pointer 1 =
          (freshTree.init_tree_size 2 2 2 4 [0, 0]).tree_pointer.getD 0 0 +
            (1 - (freshTree.init_tree_size 2 2 2 4 [0, 0]).first_atom.getD 0 0)) :=
  C7_cumulative_layout freshTree 2 2 2 4 [0, 0] (by decide) 0 (by decide) 1

end GVol
